import Mathlib

/-!
Shallow embedding of the checkpoint-based ledger synchronization engine of
kpozdnikin/go-sui-test: the service layer (the ChirpTransactionService variants
in src/unnamed/part_000 and src/unnamed/part_001), the GORM repository
(app/internal/infrastructure/storage/gormdb/transaction.go) and the parts of
the Sui wire model they consume
(app/internal/infrastructure/blockchain/sui_client.go).

Conventions of the embedding: wall-clock times are integer milliseconds,
database stores are lists of rows, the remote ledger is an oracle function
passed as a parameter, and Go early returns inside loops become recursion that
produces the first decisive value.
-/

namespace GoSuiTest

/-- Go strings.HasPrefix at the level of character lists: the first list is a
prefix of the second. -/
def goHasPre : List Char → List Char → Bool
  | [], _ => true
  | _ :: _, [] => false
  | a :: restA, b :: restB => a == b && goHasPre restA restB

/-- Go strings.Contains at the level of character lists: some suffix of the
second list starts with the first list. -/
def goContainsAux (pat : List Char) : List Char → Bool
  | [] => goHasPre pat []
  | c :: rest => goHasPre pat (c :: rest) || goContainsAux pat rest

/-- strings.Contains(s, sub), used by the classification and extraction code. -/
def goContains (s sub : String) : Bool := goContainsAux sub.data s.data

/-- strings.HasPrefix(s, pre), used for the amount sign check. -/
def goHasPrefix (s pre : String) : Bool := goHasPre pre.data s.data

/-- ASCII lowering of one character. -/
def charLower (c : Char) : Char :=
  if 65 ≤ c.toNat ∧ c.toNat ≤ 90 then Char.ofNat (c.toNat + 32) else c

/-- strings.ToLower as applied by the extractor to ASCII coin type paths and
token identifiers. The library String.toLower is extensionally the same on
this input class but is not reducible by evaluation, so the embedding carries
its own ASCII case mapping. -/
def goToLower (s : String) : String := String.mk (s.data.map charLower)

/-- Integer parsing of a decimal string, digit by digit; fails on any
non-digit character. -/
def natOfDigitsAux (acc : Nat) : List Char → Option Nat
  | [] => some acc
  | c :: rest =>
    if c.isDigit then natOfDigitsAux (acc * 10 + (c.toNat - 48)) rest else none

/-- Integer reading of an amount or gas-cost string: an optional leading minus
sign followed by decimal digits; anything unparsable reads as 0. This models
both strconv.ParseInt with its error discarded (calculateGasFee, part_001
lines 466 to 473) and SUM(CAST(amount AS DECIMAL)) over the integer token-unit
amount strings the service stores (transaction.go line 196). -/
def parseIntegerString (s : String) : Int :=
  match s.data with
  | [] => 0
  | c :: rest =>
    if c == '-' then - (Int.ofNat ((natOfDigitsAux 0 rest).getD 0))
    else Int.ofNat ((natOfDigitsAux 0 s.data).getD 0)

/-- domain.ChirpTransaction (app/internal/domain/transaction.go lines 8 to 19).
The persisted row gormdb.ChirpTransactionModel (transaction.go lines 16 to 29)
carries the same business fields; the autoincrement ID and the audit
timestamps are omitted, no claim consults them. -/
structure ChirpTransaction where
  digest : String
  sender : String
  recipient : String
  amount : String
  transactionType : String
  checkpoint : Nat
  timestamp : Int
  success : Bool
  gasFee : String
deriving DecidableEq, Repr

/-- domain.TokenStatistics (domain/transaction.go lines 22 to 32). -/
structure TokenStatistics where
  totalClaimed : String
  totalTransferred : String
  totalStaked : String
  totalBought : String
  totalSold : String
  uniqueHolders : Int
  totalTxCount : Int
  periodStart : Int
  periodEnd : Int
deriving DecidableEq, Repr

/-- blockchain.Owner (sui_client.go lines 313 to 317). The Shared variant is
omitted: extractOwnerAddress consults only the two string fields, and a field
absent from the JSON decodes to the empty string. -/
structure Owner where
  addressOwner : String
  objectOwner : String
deriving DecidableEq, Repr

/-- blockchain.BalanceChange (sui_client.go lines 307 to 311). -/
structure BalanceChange where
  owner : Owner
  coinType : String
  amount : String
deriving DecidableEq, Repr

/-- blockchain.GasUsed (sui_client.go lines 274 to 279); the non-refundable
fee field is never read by the service and is omitted. -/
structure GasUsed where
  computationCost : String
  storageCost : String
  storageRebate : String
deriving DecidableEq, Repr

/-- blockchain.ExecutionStatus (sui_client.go lines 269 to 272); the error
text is never read by the service. -/
structure ExecutionStatus where
  status : String
deriving DecidableEq, Repr

/-- blockchain.TransactionEffects (sui_client.go lines 263 to 267). -/
structure TransactionEffects where
  status : ExecutionStatus
  gasUsed : GasUsed
deriving DecidableEq, Repr

/-- One entry of TransactionKind.Transactions, a dynamically typed JSON value
probed with map assertions by determineTransactionType (part_001 lines 421 to
431): either a MoveCall object, whose function field is present as a string or
not, or any other shape. -/
inductive PTBCommand where
  | moveCall (functionName? : Option String)
  | other
deriving DecidableEq, Repr

/-- blockchain.TransactionKind (sui_client.go lines 244 to 248); the inputs
are never read by the service and are omitted. -/
structure TransactionKind where
  kind : String
  transactions : List PTBCommand
deriving DecidableEq, Repr

/-- blockchain.TransactionData (sui_client.go lines 237 to 242); message
version and gas data are never read by the service. -/
structure TransactionData where
  sender : String
  transaction : TransactionKind
deriving DecidableEq, Repr

/-- blockchain.Transaction (sui_client.go lines 232 to 235); signatures are
never read by the service. -/
structure SuiTransaction where
  data : TransactionData
deriving DecidableEq, Repr

/-- blockchain.Event (sui_client.go lines 281 to 290); only the Type field is
read by the classification code. -/
structure Event where
  type : String
deriving DecidableEq, Repr

/-- blockchain.TransactionBlock (sui_client.go lines 221 to 230); the object
changes and the cursor strings are never read by the code under proof. -/
structure TransactionBlock where
  digest : String
  transaction? : Option SuiTransaction
  effects? : Option TransactionEffects
  events : List Event
  balanceChanges : List BalanceChange
deriving DecidableEq, Repr

/-- extractOwnerAddress (part_001 lines 456 to 464). -/
def extractOwnerAddress (owner : Owner) : String :=
  if owner.addressOwner != "" then owner.addressOwner
  else if owner.objectOwner != "" then owner.objectOwner
  else ""

/-- calculateGasFee (part_001 lines 466 to 473): computation plus storage
minus rebate, printed back to a string. -/
def calculateGasFee (gasUsed : GasUsed) : String :=
  toString (parseIntegerString gasUsed.computationCost
    + parseIntegerString gasUsed.storageCost
    - parseIntegerString gasUsed.storageRebate)

/-- The MoveCall probe inside determineTransactionType (part_001 lines 421 to
431): the entry is a map holding a MoveCall map whose function field is the
string "claim". -/
def isClaimMoveCall : PTBCommand → Bool
  | .moveCall (some f) => f == "claim"
  | .moveCall none => false
  | .other => false

/-- The claim branch of determineTransactionType (part_001 lines 416 to 433):
a present transaction of kind ProgrammableTransaction containing a MoveCall
whose function name is "claim". -/
def hasClaimCall (txBlock : TransactionBlock) : Bool :=
  match txBlock.transaction? with
  | none => false
  | some tr =>
    tr.data.transaction.kind == "ProgrammableTransaction"
      && tr.data.transaction.transactions.any isClaimMoveCall

/-- The event loop of determineTransactionType (part_001 lines 435 to 443):
the first event whose type contains StakeProof or stake yields stake, else the
first whose type contains unstake yields unstake; the Go early returns become
the first some value. -/
def classifyEvents : List Event → Option String
  | [] => none
  | e :: rest =>
    if goContains e.type "StakeProof" || goContains e.type "stake" then some "stake"
    else if goContains e.type "unstake" then some "unstake"
    else classifyEvents rest

/-- determineTransactionType (part_001 lines 415 to 454, identical in
part_000 lines 218 to 257). -/
def determineTransactionType (txBlock : TransactionBlock) (amount : String) : String :=
  if hasClaimCall txBlock then "claim"
  else
    match classifyEvents txBlock.events with
    | some t => t
    | none =>
      if goHasPrefix amount "-" then "sell"
      else if amount != "0" then "transfer"
      else "transfer"

/-- extractChirpTransactions (part_001 lines 353 to 413): for every balance
change whose lowercased coin type contains the lowercased configured token or
the literal ::chirp::, emit one ChirpTransaction row; the Go append loop
becomes filterMap. The chirpToken parameter is the service field s.chirpToken. -/
def extractChirpTransactions (chirpToken : String) (txBlock : TransactionBlock)
    (checkpoint : Nat) (timestamp : Int) : List ChirpTransaction :=
  match txBlock.transaction?, txBlock.effects? with
  | some tr, some effects =>
    let sender := tr.data.sender
    let success := effects.status.status == "success"
    let gasFee := calculateGasFee effects.gasUsed
    txBlock.balanceChanges.filterMap (fun balanceChange =>
      let coinTypeLower := goToLower balanceChange.coinType
      let chirpTokenLower := goToLower chirpToken
      let isChirp := goContains coinTypeLower chirpTokenLower
        || goContains coinTypeLower "::chirp::"
      if isChirp then
        some { digest := txBlock.digest
               sender := sender
               recipient := extractOwnerAddress balanceChange.owner
               amount := balanceChange.amount
               transactionType := determineTransactionType txBlock balanceChange.amount
               checkpoint := checkpoint
               timestamp := timestamp
               success := success
               gasFee := gasFee }
      else none)
  | _, _ => []

/-- The content key of deduplicateTransactions (part_001 line 254). -/
def dedupKey (t : ChirpTransaction) : String :=
  t.digest ++ "|" ++ t.recipient ++ "|" ++ t.amount ++ "|" ++ t.transactionType

/-- The loop of deduplicateTransactions (part_001 lines 250 to 259): the Go
seen map becomes the list of keys inserted so far. -/
def dedupLoop (seen : List String) : List ChirpTransaction → List ChirpTransaction
  | [] => []
  | t :: rest =>
    if seen.contains (dedupKey t) then dedupLoop seen rest
    else t :: dedupLoop (dedupKey t :: seen) rest

/-- deduplicateTransactions (part_001 lines 249 to 262): the first occurrence
of each content key wins. -/
def deduplicateTransactions (txs : List ChirpTransaction) : List ChirpTransaction :=
  dedupLoop [] txs

/-- GetLatestCheckpoint (transaction.go lines 246 to 263): SELECT
MAX(checkpoint); an empty table gives NULL which the code maps to 0. -/
def GetLatestCheckpoint (store : List ChirpTransaction) : Nat :=
  store.foldl (fun acc r => max acc r.checkpoint) 0

/-- Whether a digest occurs twice inside one insert batch. -/
def dupWithin : List String → Bool
  | [] => false
  | d :: rest => rest.contains d || dupWithin rest

/-- The wrapped error CreateTransactionsBatch returns when the INSERT hits the
unique index (transaction.go line 100). -/
def dupKeyErrMsg : String :=
  "creating transactions batch: duplicate key value violates unique constraint"

/-- CreateTransactionsBatch (transaction.go lines 89 to 104) writing into the
chirp_transactions table whose Digest column carries a uniqueIndex
(transaction.go line 18). The INSERT has no ON CONFLICT clause, so a digest
that collides with a stored row, or occurs twice inside the batch, makes the
statement fail: the wrapped error is returned and the store is unchanged;
otherwise every row of the batch is appended. An empty batch returns nil at
once. -/
def CreateTransactionsBatch (store txs : List ChirpTransaction) :
    Except String (List ChirpTransaction) :=
  if txs.isEmpty then .ok store
  else if txs.any (fun t => store.any (fun r => r.digest == t.digest))
      || dupWithin (txs.map (fun t => t.digest)) then
    .error dupKeyErrMsg
  else .ok (store ++ txs)

/-- The WHERE clause of GetStatistics (transaction.go lines 168, 179, 197):
timestamp between start and end, both bounds inclusive. -/
def inPeriod (r : ChirpTransaction) (startT endT : Int) : Bool :=
  startT ≤ r.timestamp && r.timestamp ≤ endT

/-- SUM over the amount column of a group of rows. -/
def sumAmounts (rows : List ChirpTransaction) : Int :=
  rows.foldl (fun acc r => acc + parseIntegerString r.amount) 0

/-- One group of the SUM(CAST(amount AS DECIMAL)) aggregation grouped by
transaction_type over successful rows in the period (transaction.go lines 194
to 219): a type that has no rows produces no group, which the code maps to
the string 0 (lines 222 to 236); a present group is the printed sum. -/
def totalForType (store : List ChirpTransaction) (startT endT : Int) (t : String) : String :=
  let rows := store.filter (fun r =>
    inPeriod r startT endT && r.success && r.transactionType == t)
  if rows.isEmpty then "0" else toString (sumAmounts rows)

/-- GetStatistics (transaction.go lines 156 to 243): the transaction count is
over successful rows in the period, the distinct sender count is not gated on
success, and the per-type totals are the grouped sums. -/
def GetStatistics (store : List ChirpTransaction) (startT endT : Int) : TokenStatistics :=
  { totalClaimed := totalForType store startT endT "claim"
    totalTransferred := totalForType store startT endT "transfer"
    totalStaked := totalForType store startT endT "stake"
    totalBought := totalForType store startT endT "buy"
    totalSold := totalForType store startT endT "sell"
    uniqueHolders :=
      (((store.filter (fun r => inPeriod r startT endT)).map
        (fun r => r.sender)).eraseDups).length
    totalTxCount :=
      ((store.filter (fun r => inPeriod r startT endT && r.success)).length : Int)
    periodStart := startT
    periodEnd := endT }

/-- The range selection of the checkpoint-based SyncTransactions (part_001
lines 71 to 83): the start is the stored watermark plus one when the watermark
is positive and the watermark itself (zero) otherwise; none models the early
return when the start exceeds the chain head. -/
def syncPlan (lastCheckpoint latestCheckpoint : Nat) : Option (Nat × Nat) :=
  let startCheckpoint := if lastCheckpoint > 0 then lastCheckpoint + 1 else lastCheckpoint
  if startCheckpoint > latestCheckpoint then none
  else some (startCheckpoint, latestCheckpoint)

/-- The checkpoint numbers visited by the loop for checkpoint := start;
checkpoint <= end; checkpoint++ (part_001 line 273). -/
def checkpointSeqRange (startC endC : Nat) : List Nat :=
  List.range' startC (endC + 1 - startC)

/-- The checkpoints a checkpoint-based sync pass of part_001 visits, given the
store contents and the chain head. -/
def syncCheckpoints (store : List ChirpTransaction) (latest : Nat) : List Nat :=
  match syncPlan (GetLatestCheckpoint store) latest with
  | none => []
  | some (a, b) => checkpointSeqRange a b

/-- The shared shape of syncCheckpointRange (part_000 lines 123 to 140 and
part_001 lines 269 to 311) abstracted over the GetCheckpoint transport oracle:
fetch c = false models a failed RPC for checkpoint c, on which the loop
returns the error immediately; fetch c = true lets the per-transaction
processing of that checkpoint run (its per-item errors are logged and do not
abort the loop). Returns the checkpoints fetched and processed, in order, and
whether the loop finished without a fetch error. -/
def runCheckpointLoop (fetch : Nat → Bool) : List Nat → List Nat × Bool
  | [] => ([], true)
  | c :: rest =>
    if fetch c then
      let r := runCheckpointLoop fetch rest
      (c :: r.1, r.2)
    else ([], false)

/-- SyncTransactions of the checkpoint-based parallel variant (part_001 lines
52 to 95): one syncCheckpointRange call over the whole range, whose error is
returned to the caller (lines 84 to 87). The Bool is true when the pass
returned nil. -/
def SyncTransactionsCheckpointP1 (fetch : Nat → Bool) (store : List ChirpTransaction)
    (latest : Nat) : List Nat × Bool :=
  match syncPlan (GetLatestCheckpoint store) latest with
  | none => ([], true)
  | some (a, b) => runCheckpointLoop fetch (checkpointSeqRange a b)

/-- The sub-batch bounds of the part_000 orchestrator loop (part_000 lines 101
to 109): batches of 100 checkpoints, the last one clipped to the chain head. -/
def mkBatches (startC latest : Nat) : List (Nat × Nat) :=
  if h : startC > latest then []
  else (startC, min (startC + 99) latest) :: mkBatches (startC + 100) latest
termination_by latest + 1 - startC
decreasing_by omega

/-- The first checkpoint of the sub-batch containing c, for a batch walk that
started at startC with batch size 100. -/
def batchStartOf (startC c : Nat) : Nat :=
  startC + ((c - startC) / 100) * 100

/-- The sub-batch loop of SyncTransactions in part_000 (lines 105 to 117): a
sub-batch whose syncCheckpointRange fails is logged and the loop continues
with the next sub-batch; the pass always returns nil. Returns every checkpoint
fetched and processed across all sub-batches. -/
def SyncTransactionsBatchesP0 (fetch : Nat → Bool) (startC latest : Nat) : List Nat :=
  (mkBatches startC latest).flatMap
    (fun b => (runCheckpointLoop fetch (checkpointSeqRange b.1 b.2)).1)

/-- The fields of the ChirpTransactionService struct of the checkpoint-based
parallel variant (part_001 lines 18 to 27). -/
def chirpTransactionServiceFieldsP1 : List String :=
  ["repo", "suiClient", "chirpToken", "claimAddr", "initialSyncDays",
   "monitoringAddresses", "pageLimit", "batchSize"]

/-- The fields of the ChirpTransactionService struct of the sequential variant
(part_000 lines 56 to 61). -/
def chirpTransactionServiceFieldsP0 : List String :=
  ["repo", "suiClient", "chirpToken", "claimAddr"]

/-- Refinement predicate written from the spec words: a balance change is the
tracked asset exactly when the lowercased coin type contains the lowercased
configured token identifier or contains the literal substring ::chirp::. -/
def trackedAssetSpec (chirpToken coinType : String) : Bool :=
  goContains (goToLower coinType) (goToLower chirpToken)
    || goContains (goToLower coinType) "::chirp::"

/-! Concrete inputs used by the witnesses and counterexamples. -/

/-- The sender-side debit row a two-balance-change transaction with digest d0
would produce. -/
def c1DebitRow : ChirpTransaction :=
  { digest := "d0", sender := "0xsender", recipient := "0xsender", amount := "-100"
    transactionType := "transfer", checkpoint := 5, timestamp := 10
    success := true, gasFee := "7" }

/-- The recipient-side credit row of the same transaction: same digest d0,
different recipient and amount. -/
def c1CreditRow : ChirpTransaction :=
  { digest := "d0", sender := "0xsender", recipient := "0xreceiver", amount := "100"
    transactionType := "transfer", checkpoint := 5, timestamp := 10
    success := true, gasFee := "7" }

/-- A row already persisted with digest dup1. -/
def c2StoredRow : ChirpTransaction :=
  { digest := "dup1", sender := "0xa", recipient := "0xb", amount := "42"
    transactionType := "transfer", checkpoint := 3, timestamp := 5
    success := true, gasFee := "1" }

/-- The same event redelivered in a later batch: identical content key. -/
def c2IncomingRow : ChirpTransaction :=
  { digest := "dup1", sender := "0xa", recipient := "0xb", amount := "42"
    transactionType := "transfer", checkpoint := 3, timestamp := 5
    success := true, gasFee := "1" }

/-- A stored row at checkpoint 5, making the watermark 5. -/
def c4Row5 : ChirpTransaction :=
  { digest := "w5", sender := "0xa", recipient := "0xb", amount := "1"
    transactionType := "transfer", checkpoint := 5, timestamp := 5
    success := true, gasFee := "1" }

/-- A transport oracle that fails exactly for checkpoint 1. -/
def fetchFailAt1 : Nat → Bool := fun c => c != 1

/-- A transaction with no claim move call whose only emitted event has a type
string containing the unstake marker. -/
def c7Block : TransactionBlock :=
  { digest := "t7"
    transaction? := some { data :=
      { sender := "0xs"
        transaction := { kind := "ProgrammableTransaction", transactions := [] } } }
    effects? := some { status := { status := "success" }
                       gasUsed := { computationCost := "1", storageCost := "1"
                                    storageRebate := "0" } }
    events := [{ type := "0x7b1b::staking::unstake_event" }]
    balanceChanges := [] }

/-- A programmable transaction whose body holds a MoveCall to the function
claim, which also emits a staking event. -/
def c8Block : TransactionBlock :=
  { digest := "t8"
    transaction? := some { data :=
      { sender := "0xs"
        transaction := { kind := "ProgrammableTransaction"
                         transactions := [PTBCommand.other,
                           PTBCommand.moveCall (some "claim")] } } }
    effects? := some { status := { status := "success" }
                       gasUsed := { computationCost := "1", storageCost := "1"
                                    storageRebate := "0" } }
    events := [{ type := "0x7b1b::staking::StakeProofEvent" }]
    balanceChanges := [] }

/-- A successful claim event of amount 100 inside the query window. -/
def c9ClaimRow : ChirpTransaction :=
  { digest := "tc1", sender := "0xa", recipient := "0xb", amount := "100"
    transactionType := "claim", checkpoint := 1, timestamp := 10
    success := true, gasFee := "1" }

/-- A successful sell event of amount -40 inside the query window. -/
def c9SellRow : ChirpTransaction :=
  { digest := "tv1", sender := "0xc", recipient := "0xd", amount := "-40"
    transactionType := "sell", checkpoint := 2, timestamp := 20
    success := true, gasFee := "1" }

/-- A store holding exactly the claim event and the sell event. -/
def statStore : List ChirpTransaction := [c9ClaimRow, c9SellRow]

/-- A transaction with two balance changes: one whose coin type contains
::chirp:: but not the configured token identifier, and one unrelated coin. -/
def c10Block : TransactionBlock :=
  { digest := "t10"
    transaction? := some { data :=
      { sender := "0xa"
        transaction := { kind := "ProgrammableTransaction", transactions := [] } } }
    effects? := some { status := { status := "success" }
                       gasUsed := { computationCost := "1", storageCost := "1"
                                    storageRebate := "0" } }
    events := []
    balanceChanges :=
      [{ owner := { addressOwner := "0xr", objectOwner := "" }
         coinType := "0x1::chirp::CHIRP", amount := "55" },
       { owner := { addressOwner := "0xq", objectOwner := "" }
         coinType := "0x2::sui::SUI", amount := "99" }] }

/-! Lemmas about the Go substring check. -/

theorem goHasPre_nil (pat : List Char) (h : goHasPre pat [] = true) : pat = [] := by
  cases pat with
  | nil => rfl
  | cons a rest => simp [goHasPre] at h

theorem goHasPre_contains (pat l : List Char) (h : goHasPre pat l = true) :
    goContainsAux pat l = true := by
  cases l with
  | nil => simpa [goContainsAux] using h
  | cons c rest => simp [goContainsAux, h]

theorem goHasPre_append_contains (pre pat : List Char) :
    ∀ l : List Char, goHasPre (pre ++ pat) l = true → goContainsAux pat l = true := by
  induction pre with
  | nil =>
    intro l h
    exact goHasPre_contains pat l (by simpa using h)
  | cons a pre ih =>
    intro l h
    cases l with
    | nil => simp [goHasPre] at h
    | cons c rest =>
      simp only [List.cons_append, goHasPre, Bool.and_eq_true] at h
      have h2 := ih rest h.2
      simp [goContainsAux, h2]

theorem goContainsAux_append (pre pat : List Char) :
    ∀ l : List Char, goContainsAux (pre ++ pat) l = true → goContainsAux pat l = true := by
  intro l
  induction l with
  | nil =>
    intro h
    have hnil : pre ++ pat = [] := goHasPre_nil _ (by simpa [goContainsAux] using h)
    have hp : pat = [] := (List.append_eq_nil.mp hnil).2
    subst hp
    simp [goContainsAux, goHasPre]
  | cons c rest ih =>
    intro h
    simp only [goContainsAux, Bool.or_eq_true] at h
    rcases h with h | h
    · exact goHasPre_append_contains pre pat (c :: rest) h
    · have := ih h
      simp [goContainsAux, this]

/-- Any string containing the unstake marker also contains the stake marker,
because stake is a substring of unstake. -/
theorem goContains_unstake_stake (s : String) (h : goContains s "unstake" = true) :
    goContains s "stake" = true := by
  unfold goContains at h ⊢
  have hd : ("unstake").data = ("un").data ++ ("stake").data := by decide
  rw [hd] at h
  exact goContainsAux_append ("un").data ("stake").data s.data h

/-- The event loop of determineTransactionType can never yield unstake: the
stake check fires first on every type string containing unstake. -/
theorem classifyEvents_ne_unstake :
    ∀ events : List Event, classifyEvents events ≠ some "unstake" := by
  intro events
  induction events with
  | nil => simp [classifyEvents]
  | cons e rest ih =>
    by_cases h1 : (goContains e.type "StakeProof" || goContains e.type "stake") = true
    · simp [classifyEvents, h1]
    · have h1f : (goContains e.type "StakeProof" || goContains e.type "stake") = false := by
        simpa using h1
      have h2 : goContains e.type "unstake" = false := by
        cases hu : goContains e.type "unstake" with
        | false => rfl
        | true =>
          have hs := goContains_unstake_stake e.type hu
          simp [hs] at h1f
      simpa [classifyEvents, h1f, h2] using ih

/-- C7. The claim reads: with no claim move call, an emitted event whose type
string contains the unstake marker makes the extracted events classify as
unstake. The code contradicts it: because stake is a substring of unstake, the
stake check of determineTransactionType (part_001 lines 436 to 443) matches
first, so the concrete unstake-marked transaction c7Block classifies as stake,
and no transaction block whatsoever can classify as unstake — the unstake
branch is dead code. -/
theorem c7UnstakeBranchDead :
    determineTransactionType c7Block "5" = "stake" ∧
    ∀ (txBlock : TransactionBlock) (amount : String),
      determineTransactionType txBlock amount ≠ "unstake" := by
  constructor
  · decide
  · intro b amount
    unfold determineTransactionType
    by_cases hc : hasClaimCall b = true
    · simp [hc]
    · have hcf : hasClaimCall b = false := by simpa using hc
      simp only [hcf, Bool.false_eq_true, if_false]
      cases hce : classifyEvents b.events with
      | none =>
        simp only
        split
        · decide
        · split <;> decide
      | some t =>
        simp only
        intro ht
        subst ht
        exact classifyEvents_ne_unstake b.events hce

/-- C8. A transaction block whose body holds a MoveCall to the claim function
always classifies as claim, before the staking rules and the amount sign rule
are consulted and regardless of the amount. -/
theorem c8ClaimCallAlwaysClaim :
    ∀ (txBlock : TransactionBlock) (amount : String),
      hasClaimCall txBlock = true → determineTransactionType txBlock amount = "claim" := by
  intro b amount h
  unfold determineTransactionType
  simp [h]

/-- Witness for C8: a block with a claim MoveCall that also emits a staking
event, at a negative amount, still classifies as claim. -/
theorem c8ClaimCallAlwaysClaimWitness :
    hasClaimCall c8Block = true ∧ goHasPrefix "-5" "-" = true ∧
    determineTransactionType c8Block "-5" = "claim" :=
  ⟨by decide, by decide, c8ClaimCallAlwaysClaim c8Block "-5" (by decide)⟩

/-! Lemmas about deduplicateTransactions. -/

theorem dedupLoop_sublist :
    ∀ (txs : List ChirpTransaction) (seen : List String),
      (dedupLoop seen txs).Sublist txs := by
  intro txs
  induction txs with
  | nil => intro seen; simp [dedupLoop]
  | cons t rest ih =>
    intro seen
    unfold dedupLoop
    split
    · exact (ih seen).cons t
    · exact (ih (dedupKey t :: seen)).cons₂ t

theorem dedupLoop_filter (k : String) :
    ∀ (txs : List ChirpTransaction) (seen : List String),
      (dedupLoop seen txs).filter (fun t => dedupKey t == k)
        = if seen.contains k then []
          else (txs.find? (fun t => dedupKey t == k)).toList := by
  intro txs
  induction txs with
  | nil => intro seen; simp [dedupLoop]
  | cons t rest ih =>
    intro seen
    unfold dedupLoop
    by_cases hseen : seen.contains (dedupKey t) = true
    · rw [if_pos hseen, ih seen]
      by_cases hk : dedupKey t = k
      · subst hk
        rw [if_pos hseen, if_pos hseen]
      · have hpt : ¬ ((dedupKey t == k) = true) := by simpa using hk
        rw [List.find?_cons_of_neg rest hpt]
    · rw [if_neg hseen]
      rw [List.filter_cons]
      by_cases hk : dedupKey t = k
      · subst hk
        have hpt : (dedupKey t == dedupKey t) = true := by simp
        rw [if_pos hpt, ih (dedupKey t :: seen)]
        rw [List.find?_cons_of_pos rest hpt]
        have hcont : (dedupKey t :: seen).contains (dedupKey t) = true := by
          rw [List.contains_cons]
          simp
        rw [if_pos hcont, if_neg hseen]
        rfl
      · have hpt : ¬ ((dedupKey t == k) = true) := by simpa using hk
        rw [if_neg hpt, ih (dedupKey t :: seen)]
        rw [List.find?_cons_of_neg rest hpt]
        have hne : (k == dedupKey t) = false := by
          rw [beq_eq_false_iff_ne]
          exact fun h => hk h.symm
        rw [List.contains_cons, hne, Bool.false_or]

/-- C6. deduplicateTransactions is a pure function returning a subsequence of
its input (so the relative order of kept events is preserved), and for every
content key the kept events with that key are exactly the first input event
carrying it: later events with an already seen key are dropped, and a batch
holding two events with the same key passes exactly one on to the bulk
persist. -/
theorem c6DedupFirstOccurrenceWins :
    ∀ (txs : List ChirpTransaction),
      (deduplicateTransactions txs).Sublist txs ∧
      ∀ k : String,
        (deduplicateTransactions txs).filter (fun t => dedupKey t == k)
          = (txs.find? (fun t => dedupKey t == k)).toList := by
  intro txs
  constructor
  · exact dedupLoop_sublist txs []
  · intro k
    have h := dedupLoop_filter k txs []
    simpa [deduplicateTransactions] using h

/-! Lemmas about the persistence model. -/

theorem dupWithin_false_pairwise :
    ∀ l : List String, dupWithin l = false → l.Pairwise (fun a b => a ≠ b) := by
  intro l
  induction l with
  | nil => intro _; exact List.Pairwise.nil
  | cons d rest ih =>
    intro h
    have h1 : d ∉ rest ∧ dupWithin rest = false := by
      simpa [dupWithin] using h
    refine List.Pairwise.cons ?_ (ih h1.2)
    intro b hb heq
    rw [← heq] at hb
    exact h1.1 hb

/-- C1 counterexample. The claim reads: a single transaction may legitimately
produce multiple stored rows sharing the same digest but differing in
recipient, amount, or kind. The schema contradicts it: the Digest column
carries a uniqueIndex, so the batch holding the sender debit and the recipient
credit of one transaction (same digest d0, different recipient and amount)
fails the INSERT instead of persisting both rows. -/
theorem c1SameDigestRowsRejected :
    c1DebitRow.digest = c1CreditRow.digest ∧
    c1DebitRow.recipient ≠ c1CreditRow.recipient ∧
    CreateTransactionsBatch [] [c1DebitRow, c1CreditRow] = Except.error dupKeyErrMsg :=
  ⟨rfl, by decide, rfl⟩

/-- C1 amended. Uniqueness is enforced on the digest alone: any successful
batch insert into a store whose digests are pairwise distinct leaves a store
whose digests are pairwise distinct, and a fortiori no two stored rows share
the whole tuple of digest, recipient, amount and kind. -/
theorem c1DigestUniquePreserved :
    ∀ (store txs stored : List ChirpTransaction),
      List.Pairwise (fun a b => a.digest ≠ b.digest) store →
      CreateTransactionsBatch store txs = Except.ok stored →
      List.Pairwise (fun a b => a.digest ≠ b.digest) stored ∧
      List.Pairwise (fun a b =>
        ¬(a.digest = b.digest ∧ a.recipient = b.recipient ∧ a.amount = b.amount
          ∧ a.transactionType = b.transactionType)) stored := by
  intro store txs stored hstore hok
  unfold CreateTransactionsBatch at hok
  have key :
      List.Pairwise (fun a b : ChirpTransaction => a.digest ≠ b.digest) stored := by
    by_cases hemp : txs.isEmpty = true
    · rw [if_pos hemp] at hok
      cases hok
      exact hstore
    · rw [if_neg hemp] at hok
      by_cases hcl : (txs.any (fun t => store.any (fun r => r.digest == t.digest))
          || dupWithin (txs.map (fun t => t.digest))) = true
      · rw [if_pos hcl] at hok
        cases hok
      · rw [if_neg hcl] at hok
        cases hok
        have hclf : (∀ b ∈ txs, ∀ a ∈ store, ¬ a.digest = b.digest) ∧
            dupWithin (List.map (fun t => t.digest) txs) = false := by
          simpa using hcl
        have htxs : List.Pairwise
            (fun a b : ChirpTransaction => a.digest ≠ b.digest) txs := by
          have hp := dupWithin_false_pairwise _ hclf.2
          exact List.pairwise_map.mp hp
        have hcross : ∀ a ∈ store, ∀ b ∈ txs, a.digest ≠ b.digest :=
          fun a ha b hb heq => hclf.1 b hb a ha heq
        exact List.pairwise_append.mpr ⟨hstore, htxs, hcross⟩
  refine ⟨key, key.imp ?_⟩
  intro a b hd hconj
  exact hd hconj.1

/-- Witness for C1 amended: inserting one row into the empty store succeeds
and the stored rows satisfy both uniqueness forms. -/
theorem c1DigestUniquePreservedWitness :
    List.Pairwise (fun a b : ChirpTransaction => a.digest ≠ b.digest) [c1CreditRow] ∧
    List.Pairwise (fun a b : ChirpTransaction =>
      ¬(a.digest = b.digest ∧ a.recipient = b.recipient ∧ a.amount = b.amount
        ∧ a.transactionType = b.transactionType)) [c1CreditRow] :=
  c1DigestUniquePreserved [] [c1CreditRow] [c1CreditRow] List.Pairwise.nil rfl

/-- C2. The claim reads: a bulk persist colliding with an already stored row
treats the collision as success and returns without error. The code
contradicts it: CreateTransactionsBatch has no conflict handling, so
redelivering the already stored row dup1 surfaces the wrapped duplicate-key
error to the caller. -/
theorem c2DuplicateBatchSurfacesError :
    CreateTransactionsBatch [c2StoredRow] [c2IncomingRow] = Except.error dupKeyErrMsg := rfl

/-- C3. The claim reads: a single-flight lock serializes concurrent Sync
invocations. The service structs contradict it: neither variant of
ChirpTransactionService carries the syncMutex field that the repository
documentation (part_004) describes, and SyncTransactions acquires no lock. -/
theorem c3NoSyncMutexField :
    ("syncMutex" ∈ chirpTransactionServiceFieldsP1) = False ∧
    ("syncMutex" ∈ chirpTransactionServiceFieldsP0) = False := by
  constructor <;> simp [chirpTransactionServiceFieldsP1, chirpTransactionServiceFieldsP0]

/-- C9 counterexample. The claim reads: for a window holding exactly one
successful claim of amount 100 and one successful sell of amount -40, the
statistics report TotalSold = 40, with the sign handled at aggregation. The
code contradicts it: the sell group sum is reported verbatim, so TotalSold is
the string -40. -/
theorem c9SellSignCounterexample :
    (GetStatistics statStore 0 1000).totalSold = "-40" ∧ ("-40" : String) ≠ "40" :=
  ⟨rfl, by decide⟩

/-- C9 amended. On the same store the statistics report TotalClaimed = 100 and
TotalTxCount = 2 as the claim states, but TotalSold carries the raw signed sum
-40: no sign adjustment happens at aggregation. -/
theorem c9AggregateAmended :
    (GetStatistics statStore 0 1000).totalClaimed = "100" ∧
    (GetStatistics statStore 0 1000).totalSold = "-40" ∧
    (GetStatistics statStore 0 1000).totalTxCount = 2 :=
  ⟨rfl, rfl, rfl⟩

/-! Lemmas about the watermark and the checkpoint range selection. -/

theorem foldl_max_le :
    ∀ (store : List ChirpTransaction) (acc : Nat),
      acc ≤ store.foldl (fun a r => max a r.checkpoint) acc ∧
      ∀ r ∈ store, r.checkpoint ≤ store.foldl (fun a r => max a r.checkpoint) acc := by
  intro store
  induction store with
  | nil => intro acc; exact ⟨le_refl acc, by simp⟩
  | cons t rest ih =>
    intro acc
    rw [List.foldl_cons]
    constructor
    · exact le_trans (le_max_left acc t.checkpoint) (ih (max acc t.checkpoint)).1
    · intro r hr
      rcases List.mem_cons.mp hr with h | h
      · subst h
        exact le_trans (le_max_right acc r.checkpoint) (ih (max acc r.checkpoint)).1
      · exact (ih (max acc t.checkpoint)).2 r h

theorem syncCheckpoints_eq (store : List ChirpTransaction) (latest : Nat) :
    syncCheckpoints store latest =
      (if GetLatestCheckpoint store = 0 then checkpointSeqRange 0 latest
       else if latest ≤ GetLatestCheckpoint store then []
       else checkpointSeqRange (GetLatestCheckpoint store + 1) latest) := by
  unfold syncCheckpoints syncPlan
  generalize GetLatestCheckpoint store = W
  by_cases h0 : W = 0
  · subst h0
    simp
  · have hpos : W > 0 := Nat.pos_of_ne_zero h0
    rw [if_neg h0]
    by_cases hle : latest ≤ W
    · rw [if_pos hle]
      have hgt : (if W > 0 then W + 1 else W) > latest := by
        rw [if_pos hpos]; omega
      simp [hgt]
    · rw [if_neg hle]
      have hlt : ¬ latest < W + 1 := by omega
      simp [hpos, hlt]

/-- C4 (amended). The watermark is the MAX over the stored checkpoint values,
0 for an empty store, and it dominates every stored row. When the watermark is
positive the part_001 pass behaves as the claim states: zero work when the
watermark has reached the chain head, else the range from watermark plus one
to the head. When the watermark is 0, however, the pass always visits the full
range starting at checkpoint 0, even when the chain head is 0. -/
theorem c4WatermarkRangeAmended :
    ∀ (store : List ChirpTransaction) (latest : Nat) (r : ChirpTransaction),
      r ∈ store →
      r.checkpoint ≤ GetLatestCheckpoint store ∧
      syncCheckpoints store latest =
        (if GetLatestCheckpoint store = 0 then checkpointSeqRange 0 latest
         else if latest ≤ GetLatestCheckpoint store then []
         else checkpointSeqRange (GetLatestCheckpoint store + 1) latest) := by
  intro store latest r hr
  exact ⟨(foldl_max_le store 0).2 r hr, syncCheckpoints_eq store latest⟩

/-- Witness for C4 amended: with one stored row at checkpoint 5 and chain head
9 the pass visits exactly 6 through 9. -/
theorem c4WatermarkRangeAmendedWitness :
    c4Row5.checkpoint ≤ GetLatestCheckpoint [c4Row5] ∧
    syncCheckpoints [c4Row5] 9 = checkpointSeqRange 6 9 := by
  have h := c4WatermarkRangeAmended [c4Row5] 9 c4Row5 (by simp)
  refine ⟨h.1, ?_⟩
  rw [h.2]
  decide

/-- C4 counterexample. The claim reads: when the watermark W is at least the
latest chain checkpoint the pass does zero work, and otherwise it processes
exactly the range from W + 1 to latest. At the empty store the watermark is 0,
yet with chain head 0 the part_001 pass still processes checkpoint 0, and with
chain head 5 it processes 0 through 5 rather than 1 through 5: the start is W,
not W + 1, when W = 0. -/
theorem c4ZeroWatermarkCounterexample :
    GetLatestCheckpoint ([] : List ChirpTransaction) = 0 ∧
    syncCheckpoints ([] : List ChirpTransaction) 0 = [0] ∧
    syncCheckpoints ([] : List ChirpTransaction) 5 = [0, 1, 2, 3, 4, 5] := by
  refine ⟨rfl, by decide, by decide⟩

/-! Lemmas about the sub-batch loops. -/

theorem runCheckpointLoop_mem :
    ∀ (fetch : Nat → Bool) (n a c : Nat),
      a ≤ c → c < a + n → (∀ j, a ≤ j → j ≤ c → fetch j = true) →
      c ∈ (runCheckpointLoop fetch (List.range' a n)).1 := by
  intro fetch n
  induction n with
  | zero => intro a c h1 h2 _; omega
  | succ n ih =>
    intro a c h1 h2 hf
    rw [List.range'_succ]
    have hfa : fetch a = true := hf a (le_refl a) h1
    simp only [runCheckpointLoop, hfa, if_true]
    by_cases hca : c = a
    · subst hca
      exact List.mem_cons_self _ _
    · exact List.mem_cons_of_mem _
        (ih (a + 1) c (by omega) (by omega) (fun j hj1 hj2 => hf j (by omega) hj2))

theorem mkBatches_mem (startC latest c : Nat) (h1 : startC ≤ c) (h2 : c ≤ latest) :
    (batchStartOf startC c, min (batchStartOf startC c + 99) latest)
      ∈ mkBatches startC latest := by
  rw [mkBatches]
  rw [dif_neg (by omega : ¬ startC > latest)]
  by_cases hc : c < startC + 100
  · have hbs : batchStartOf startC c = startC := by
      unfold batchStartOf
      omega
    rw [hbs]
    exact List.mem_cons_self _ _
  · have hbs : batchStartOf startC c = batchStartOf (startC + 100) c := by
      unfold batchStartOf
      omega
    rw [hbs]
    exact List.mem_cons_of_mem _ (mkBatches_mem (startC + 100) latest c (by omega) h2)
termination_by latest + 1 - startC
decreasing_by omega

theorem batchStartOf_le (startC c : Nat) (h : startC ≤ c) :
    batchStartOf startC c ≤ c ∧ c ≤ batchStartOf startC c + 99 := by
  unfold batchStartOf
  omega

/-- C5 (amended). In the part_000 orchestrator a failing sub-batch is logged
and the loop continues: every checkpoint whose own sub-batch has no fetch
failure at or before it is still processed, whatever happens in other
sub-batches, and the pass returns nil by construction. In the part_001
variant, by contrast, the whole range is one syncCheckpointRange call whose
error aborts the pass (see the counterexample). -/
theorem c5LaterBatchesProceedP0 :
    ∀ (fetch : Nat → Bool) (startC latest c : Nat),
      startC ≤ c → c ≤ latest →
      (∀ j, batchStartOf startC c ≤ j → j ≤ c → fetch j = true) →
      c ∈ SyncTransactionsBatchesP0 fetch startC latest := by
  intro fetch startC latest c h1 h2 hf
  unfold SyncTransactionsBatchesP0
  rw [List.mem_flatMap]
  refine ⟨(batchStartOf startC c, min (batchStartOf startC c + 99) latest),
    mkBatches_mem startC latest c h1 h2, ?_⟩
  have hb := batchStartOf_le startC c h1
  unfold checkpointSeqRange
  exact runCheckpointLoop_mem fetch
    (min (batchStartOf startC c + 99) latest + 1 - batchStartOf startC c)
    (batchStartOf startC c) c hb.1 (by omega) hf

/-- Witness for C5 amended: with the transport failing exactly at checkpoint
1, checkpoint 150 of a later sub-batch is still processed by the part_000
loop over the range 0 to 250. -/
theorem c5LaterBatchesProceedP0Witness :
    150 ∈ SyncTransactionsBatchesP0 fetchFailAt1 0 250 := by
  refine c5LaterBatchesProceedP0 fetchFailAt1 0 250 150 (by omega) (by omega) ?_
  intro j hj1 hj2
  have hbs : batchStartOf 0 150 = 100 := by decide
  rw [hbs] at hj1
  simp only [fetchFailAt1, bne_iff_ne, ne_eq, decide_eq_true_eq]
  omega

/-- C5 counterexample. The claim reads: Sync logs a failing sub-batch and
proceeds, never failing outright for ledger-side partial issues. The part_001
variant contradicts it: with the transport failing exactly at checkpoint 1 and
chain head 3, SyncTransactions returns the error (second component false),
only checkpoint 0 was processed, and checkpoints 2 and 3 are blocked. -/
theorem c5SingleFailureAbortsP1 :
    (SyncTransactionsCheckpointP1 fetchFailAt1 [] 3).2 = false ∧
    (SyncTransactionsCheckpointP1 fetchFailAt1 [] 3).1 = [0] ∧
    2 ∉ (SyncTransactionsCheckpointP1 fetchFailAt1 [] 3).1 ∧
    3 ∉ (SyncTransactionsCheckpointP1 fetchFailAt1 [] 3).1 := by
  refine ⟨by decide, by decide, by decide, by decide⟩

/-! The extractor emits one event per tracked balance change. -/

theorem filterMapIf_map {α β γ : Type} (p : α → Bool) (f : α → β) (g : β → γ) (q : α → γ)
    (hfg : ∀ x, g (f x) = q x) :
    ∀ l : List α,
      (l.filterMap (fun x => if p x then some (f x) else none)).map g
        = (l.filter p).map q := by
  intro l
  induction l with
  | nil => simp
  | cons x rest ih =>
    by_cases hp : p x = true
    · simp [List.filterMap_cons, List.filter_cons, hp, ih, hfg]
    · have hpf : p x = false := by simpa using hp
      simp [List.filterMap_cons, List.filter_cons, hpf, ih]

/-- C10. For every block with transaction and effects present, the extractor
emits exactly one event per balance change satisfying the tracked-asset
predicate of the spec (lowercased coin type contains the lowercased configured
token, or contains the literal ::chirp::), in order and carrying the balance
change amount: in particular a coin type containing ::chirp:: produces an
event even when the configured identifier does not occur in it (see the
witness). -/
theorem c10TrackedAssetFilter :
    ∀ (chirpToken : String) (txBlock : TransactionBlock) (cp : Nat) (ts : Int),
      txBlock.transaction?.isSome = true → txBlock.effects?.isSome = true →
      (extractChirpTransactions chirpToken txBlock cp ts).map (fun t => t.amount)
        = (txBlock.balanceChanges.filter
            (fun bc => trackedAssetSpec chirpToken bc.coinType)).map
              (fun bc => bc.amount) := by
  intro token b cp ts htr heff
  rcases b with ⟨dg, otr, oeff, evs, bcs⟩
  cases otr with
  | none => simp at htr
  | some tr =>
    cases oeff with
    | none => simp at heff
    | some eff =>
      simp only [extractChirpTransactions, trackedAssetSpec]
      exact filterMapIf_map _ _ _ _ (fun x => rfl) bcs

/-- Witness for C10: the configured token sometoken does not occur in the coin
type, yet the ::chirp:: marker makes the extractor emit the event of amount
55, while the unrelated SUI balance change emits nothing. -/
theorem c10TrackedAssetFilterWitness :
    goContains (goToLower "0x1::chirp::CHIRP") (goToLower "sometoken") = false ∧
    (extractChirpTransactions "sometoken" c10Block 7 0).map (fun t => t.amount) = ["55"] := by
  constructor
  · decide
  · rw [c10TrackedAssetFilter "sometoken" c10Block 7 0 rfl rfl]
    decide

end GoSuiTest
